import Mathlib

/-!
Verification of the VM right-sizing analysis pipeline (`src/vm_rightsizing.py`).

The analytical core of the script is embedded shallowly:
* `extract_power_state` — the power-state derivation loop in `get_virtual_machines`
  (lines 125–130);
* `extractAverages` — the sample-collection loop in `get_cpu_utilization`
  (lines 174–179), which drops null `average` entries;
* `is_underutilized` — the aggregator/classifier (lines 188–197);
* `generate_recommendations` — the per-machine analysis loop (lines 200–247);
* `stopped_vm_details` — the stopped/deallocated report rows built in `main`
  (lines 307–317).

Floating-point sample values are modelled as rationals; the external metrics
source (`monitor_client.metrics.list`, together with the exception handler of
`get_cpu_utilization` that turns a fetch failure into the empty list) is
modelled as a function `fetch : VMInfo → List ℚ` giving each machine its list
of retrieved CPU averages.
-/

namespace VMRightsizing

/-! ### Python string primitives

Python `str.startswith`, `str.split(sep)`, `str.lower` and `str.capitalize`
modelled over the character list of a string. -/

/-- Python `s.startswith(p)` over character lists (first argument the string,
second the candidate leading segment). -/
def pyStartsWith : List Char → List Char → Bool
  | _, [] => true
  | [], _ :: _ => false
  | c :: s, d :: p => c == d && pyStartsWith s p

/-- Python `s.split(sep)` for a one-character separator: splits at every
occurrence, keeping empty fields. -/
def pySplit (sep : Char) : List Char → List (List Char)
  | [] => [[]]
  | c :: cs =>
    match pySplit sep cs with
    | [] => [[]]
    | cur :: rest => if c == sep then [] :: cur :: rest else (c :: cur) :: rest

/-- Python `s.lower()` (ASCII, which covers the power-state codes). -/
def pyLower (s : List Char) : List Char := s.map Char.toLower

/-- Python `s.capitalize()`: first character upper-cased, the rest lower-cased. -/
def pyCapitalize (s : String) : String :=
  match s.data with
  | [] => ⟨[]⟩
  | c :: cs => ⟨Char.toUpper c :: cs.map Char.toLower⟩

/-! ### Configuration (line 28) -/

/-- `CPU_THRESHOLD = 30` — CPU percentage threshold for considering a VM
underutilized. -/
def CPU_THRESHOLD : ℚ := 30

/-! ### Data model -/

/-- The `vm_info` dictionary built in `get_virtual_machines` (lines 132–139). -/
structure VMInfo where
  name : String
  resource_group : String
  location : String
  vm_size : String
  id : String
  power_state : String
deriving DecidableEq, Repr

/-- Power-state derivation from the instance-view status code list
(lines 126–130): starting from `"unknown"`, take the first status code that
starts with `"PowerState/"` and use `code.split("/")[1].lower()`. -/
def extract_power_state (statuses : List String) : String :=
  match statuses.find? (fun code => pyStartsWith code.data "PowerState/".data) with
  | none => "unknown"
  | some code => ⟨pyLower ((pySplit '/' code.data).getD 1 [])⟩

/-- The spec's wording of the same derivation (§6): "look for a status code
prefixed \"PowerState/\"; take the first match, lower-cased suffix; default
\"unknown\" if none found" — the suffix being everything after the leading
`"PowerState/"`. Stated for comparison with `extract_power_state`. -/
def power_state_spec (statuses : List String) : String :=
  match statuses.find? (fun code => pyStartsWith code.data "PowerState/".data) with
  | none => "unknown"
  | some code => ⟨pyLower (code.data.drop "PowerState/".data.length)⟩

/-- Sample collection in `get_cpu_utilization` (lines 174–179): every
`data.average` that is not `None` is appended, in order. A whole
`UtilizationSeries` is flattened here to its per-datapoint optional averages. -/
def extractAverages (samples : List (Option ℚ)) : List ℚ :=
  samples.filterMap id

/-- `is_underutilized(cpu_data, threshold=CPU_THRESHOLD)` (lines 188–197):
returns `(False, 0.0)` on an empty list, otherwise
`(avg_cpu < threshold, avg_cpu)` with `avg_cpu = sum(cpu_data)/len(cpu_data)`. -/
def is_underutilized (cpu_data : List ℚ) (threshold : ℚ) : Bool × ℚ :=
  if cpu_data = [] then (false, 0)
  else
    let avg_cpu := cpu_data.sum / cpu_data.length
    (decide (avg_cpu < threshold), avg_cpu)

/-- Python 3 banker's rounding of a rational to the nearest integer
(ties to even). -/
def roundHalfEven (q : ℚ) : ℤ :=
  if q - ⌊q⌋ < 1/2 then ⌊q⌋
  else if 1/2 < q - ⌊q⌋ then ⌊q⌋ + 1
  else if ⌊q⌋ % 2 = 0 then ⌊q⌋ else ⌊q⌋ + 1

/-- Python `round(x, 2)` on the rational model. -/
def round2 (x : ℚ) : ℚ := (roundHalfEven (100 * x) : ℚ) / 100

/-- A recommendation row appended at lines 233–240. -/
structure Recommendation where
  vm_name : String
  resource_group : String
  location : String
  vm_size : String
  avg_cpu : ℚ
  recommendation : String
deriving DecidableEq, Repr

/-- The row built for one underutilized running machine (lines 233–240). -/
def mkRecommendation (vm : VMInfo) (avg : ℚ) : Recommendation :=
  { vm_name := vm.name
    resource_group := vm.resource_group
    location := vm.location
    vm_size := vm.vm_size
    avg_cpu := round2 avg
    recommendation := "Consider downsizing or deallocating" }

/-- The four values returned by `generate_recommendations` (line 247). -/
structure GenResult where
  recommendations : List Recommendation
  vms_without_data : List String
  running_vms : List VMInfo
  stopped_vms : List VMInfo
deriving DecidableEq, Repr

/-- The loop of lines 221–240 over the running machines: fetch the CPU data;
if empty, record the name in `vms_without_data` and continue; otherwise run
`is_underutilized` (at the default threshold `CPU_THRESHOLD`, as at line 230)
and, when underutilized, append a recommendation row. -/
def processRunning (fetch : VMInfo → List ℚ) : List VMInfo → List Recommendation × List String
  | [] => ([], [])
  | vm :: rest =>
    let cpu_data := fetch vm
    let tail := processRunning fetch rest
    if cpu_data = [] then (tail.1, vm.name :: tail.2)
    else
      let r := is_underutilized cpu_data CPU_THRESHOLD
      if r.1 then (mkRecommendation vm r.2 :: tail.1, tail.2) else tail

/-- `generate_recommendations(vm_list, ...)` (lines 200–247): partition
`vm_list` into running and stopped/deallocated machines (lines 214–215),
return early when no machine is running (lines 217–219), otherwise run the
analysis loop over the running machines. -/
def generate_recommendations (fetch : VMInfo → List ℚ) (vm_list : List VMInfo) : GenResult :=
  let running_vms := vm_list.filter (fun vm => vm.power_state == "running")
  let stopped_vms := vm_list.filter
    (fun vm => vm.power_state == "stopped" || vm.power_state == "deallocated")
  if running_vms = [] then
    ⟨[], [], running_vms, stopped_vms⟩
  else
    let done := processRunning fetch running_vms
    ⟨done.1, done.2, running_vms, stopped_vms⟩

/-- A stopped/deallocated report row built in `main` (lines 309–316). -/
structure StoppedRow where
  vm_name : String
  resource_group : String
  location : String
  vm_size : String
  status : String
  recommendation : String
deriving DecidableEq, Repr

/-- The row built for one stopped/deallocated machine (lines 309–316). -/
def mkStoppedRow (vm : VMInfo) : StoppedRow :=
  { vm_name := vm.name
    resource_group := vm.resource_group
    location := vm.location
    vm_size := vm.vm_size
    status := pyCapitalize vm.power_state
    recommendation := "Consider deleting if no longer needed" }

/-- The `stopped_vm_details` list comprehension in `main` (lines 309–316):
one row per stopped/deallocated machine, unconditionally. -/
def stopped_vm_details (stopped : List VMInfo) : List StoppedRow :=
  stopped.map mkStoppedRow

/-! ### Derived predicates describing the analysis loop -/

/-- A machine whose fetched series is non-empty and whose average is classified
underutilized at the configured threshold: exactly the machines for which the
loop of lines 221–240 emits a row. -/
def underutilP (fetch : VMInfo → List ℚ) (vm : VMInfo) : Bool :=
  !(fetch vm).isEmpty && (is_underutilized (fetch vm) CPU_THRESHOLD).1

/-- A machine whose fetched series is empty: the loop records its name in
`vms_without_data` (lines 226–228). -/
def noDataP (fetch : VMInfo → List ℚ) (vm : VMInfo) : Bool :=
  (fetch vm).isEmpty

/-- The row the loop emits for a given machine. -/
def recRow (fetch : VMInfo → List ℚ) (vm : VMInfo) : Recommendation :=
  mkRecommendation vm (is_underutilized (fetch vm) CPU_THRESHOLD).2

/-! ### Concrete fixtures used to instantiate the theorems -/

/-- A running machine. -/
def vmA : VMInfo := ⟨"vm-a", "rg", "eastus", "Standard_B2s", "id-a", "running"⟩

/-- A stopped machine. -/
def vmB : VMInfo := ⟨"vm-b", "rg", "eastus", "Standard_B2s", "id-b", "stopped"⟩

/-- A machine with unknown power state. -/
def vmC : VMInfo := ⟨"vm-c", "rg", "eastus", "Standard_B2s", "id-c", "unknown"⟩

/-- A second running machine. -/
def vmD : VMInfo := ⟨"vm-d", "rg", "eastus", "Standard_B2s", "id-d", "running"⟩

/-- A metrics source that yields the series `[10, 20]` for `vm-a` and no data
for every other machine. -/
def fetchW : VMInfo → List ℚ := fun vm => if vm.name = "vm-a" then [10, 20] else []

/-- A metrics source that fails (empty series) for `vm-a` and yields `[10]`
for every other machine. -/
def fetchN : VMInfo → List ℚ := fun vm => if vm.name = "vm-a" then [] else [10]

/-! ### Characterization of the analysis loop -/

theorem processRunning_eq (fetch : VMInfo → List ℚ) (l : List VMInfo) :
    processRunning fetch l =
      ((l.filter (underutilP fetch)).map (recRow fetch),
       (l.filter (noDataP fetch)).map VMInfo.name) := by
  induction l with
  | nil => rfl
  | cons vm rest ih =>
    by_cases h : fetch vm = []
    · simp [processRunning, h, ih, underutilP, noDataP, List.filter_cons]
    · by_cases hu : (is_underutilized (fetch vm) CPU_THRESHOLD).1
      · simp [processRunning, h, hu, ih, underutilP, noDataP, recRow,
          List.filter_cons, List.isEmpty_iff]
      · simp [processRunning, h, hu, ih, underutilP, noDataP,
          List.filter_cons, List.isEmpty_iff]

theorem generate_recommendations_eq (fetch : VMInfo → List ℚ) (vm_list : List VMInfo) :
    generate_recommendations fetch vm_list =
      ⟨((vm_list.filter (fun vm => vm.power_state == "running")).filter
          (underutilP fetch)).map (recRow fetch),
        ((vm_list.filter (fun vm => vm.power_state == "running")).filter
          (noDataP fetch)).map VMInfo.name,
        vm_list.filter (fun vm => vm.power_state == "running"),
        vm_list.filter
          (fun vm => vm.power_state == "stopped" || vm.power_state == "deallocated")⟩ := by
  unfold generate_recommendations
  by_cases h : vm_list.filter (fun vm => vm.power_state == "running") = []
  · simp [h]
  · simp [h, processRunning_eq]

theorem is_underutilized_fst_iff (cpu_data : List ℚ) (threshold : ℚ)
    (h : cpu_data ≠ []) :
    (is_underutilized cpu_data threshold).1 = true ↔
      (is_underutilized cpu_data threshold).2 < threshold := by
  simp [is_underutilized, h]

/-! ### Lemmas about the Python string primitives -/

theorem pySplit_ne_nil (sep : Char) (l : List Char) : pySplit sep l ≠ [] := by
  cases l with
  | nil => simp [pySplit]
  | cons c cs =>
    simp only [pySplit]
    cases h : pySplit sep cs with
    | nil => simp
    | cons cur rest =>
      by_cases hc : c == sep <;> simp [hc]

theorem pySplit_no_sep (sep : Char) (l : List Char) (h : sep ∉ l) :
    pySplit sep l = [l] := by
  induction l with
  | nil => rfl
  | cons c cs ih =>
    have hc : ¬(c == sep) = true := by
      simp only [beq_iff_eq]
      rintro rfl
      exact h (List.mem_cons_self c cs)
    have hcs : sep ∉ cs := fun hmem => h (List.mem_cons_of_mem _ hmem)
    simp only [pySplit, ih hcs]
    simp [hc]

theorem pySplit_prepend (sep : Char) (a t : List Char) (h : sep ∉ a) :
    pySplit sep (a ++ sep :: t) = a :: pySplit sep t := by
  induction a with
  | nil =>
    simp only [List.nil_append, pySplit]
    cases ht : pySplit sep t with
    | nil => exact absurd ht (pySplit_ne_nil sep t)
    | cons cur rest => simp
  | cons c cs ih =>
    have hc : ¬(c == sep) = true := by
      simp only [beq_iff_eq]
      rintro rfl
      exact h (List.mem_cons_self c cs)
    have hcs : sep ∉ cs := fun hmem => h (List.mem_cons_of_mem _ hmem)
    simp only [List.cons_append, pySplit, List.append_eq]
    rw [ih hcs]
    simp [hc]

theorem pyStartsWith_iff (s p : List Char) :
    pyStartsWith s p = true ↔ ∃ t, s = p ++ t := by
  induction p generalizing s with
  | nil =>
    cases s <;> simp [pyStartsWith]
  | cons d ds ih =>
    cases s with
    | nil => simp [pyStartsWith]
    | cons c cs =>
      simp only [pyStartsWith, Bool.and_eq_true, beq_iff_eq, ih, List.cons_append,
        List.cons.injEq]
      constructor
      · rintro ⟨rfl, t, rfl⟩
        exact ⟨t, rfl, rfl⟩
      · rintro ⟨t, rfl, rfl⟩
        exact ⟨rfl, t, rfl⟩

/-! ## Claims -/

/-- **C1** (code bug, evaluated at the failing input): for the empty
`UtilizationSeries`, `is_underutilized` returns the plain pair
`(False, 0.0)` — the reported average is the ordinary value `0.0`, the very
same value a genuinely idle machine (one `0.0` sample) reports, not a
designated "no data" signal distinct from a real `0.0` reading. -/
theorem C1_empty_series_yields_plain_zero :
    is_underutilized [] CPU_THRESHOLD = (false, 0) ∧
      (is_underutilized [] CPU_THRESHOLD).2 = (is_underutilized [0] CPU_THRESHOLD).2 := by
  refine ⟨rfl, ?_⟩
  simp [is_underutilized]

/-- **C2**: for every non-empty `UtilizationSeries` (null samples excluded
exactly as `get_cpu_utilization` excludes `None` averages), the aggregated
value is the arithmetic mean of the sample values: their sum divided by
their count. -/
theorem C2_aggregator_arithmetic_mean (samples : List (Option ℚ)) (threshold : ℚ)
    (h : extractAverages samples ≠ []) :
    extractAverages samples = samples.filterMap id ∧
      (is_underutilized (extractAverages samples) threshold).2 =
        (samples.filterMap id).sum / ((samples.filterMap id).length : ℚ) := by
  refine ⟨rfl, ?_⟩
  rw [is_underutilized, if_neg h]
  rfl

/-- Witness for C2 at the series `[10, null, 20]`. -/
theorem C2_aggregator_arithmetic_mean_witness :
    extractAverages [some 10, none, some 20] ≠ [] ∧
      (extractAverages [some 10, none, some 20] =
          ([some 10, none, some 20] : List (Option ℚ)).filterMap id ∧
        (is_underutilized (extractAverages [some 10, none, some 20]) 30).2 =
          (([some 10, none, some 20] : List (Option ℚ)).filterMap id).sum /
            ((([some 10, none, some 20] : List (Option ℚ)).filterMap id).length : ℚ)) :=
  ⟨by decide, C2_aggregator_arithmetic_mean [some 10, none, some 20] 30 (by decide)⟩

/-- **C3**: on a non-empty series the classifier flags a machine
underutilized exactly when the average is strictly below the threshold, and
in particular an average equal to the threshold is not flagged. -/
theorem C3_classifier_strict_threshold (cpu_data : List ℚ) (threshold : ℚ)
    (h : cpu_data ≠ []) :
    ((is_underutilized cpu_data threshold).1 = true ↔
        (is_underutilized cpu_data threshold).2 < threshold) ∧
      ((is_underutilized cpu_data threshold).2 = threshold →
        (is_underutilized cpu_data threshold).1 = false) := by
  refine ⟨is_underutilized_fst_iff cpu_data threshold h, fun heq => ?_⟩
  cases hfst : (is_underutilized cpu_data threshold).1 with
  | false => rfl
  | true =>
    have hlt := (is_underutilized_fst_iff cpu_data threshold h).1 hfst
    rw [heq] at hlt
    exact absurd hlt (lt_irrefl threshold)

/-- Witness for C3 at the boundary series `[30]` with threshold `30`. -/
theorem C3_classifier_strict_threshold_witness :
    ([(30 : ℚ)] ≠ []) ∧
      (((is_underutilized [30] 30).1 = true ↔ (is_underutilized [30] 30).2 < 30) ∧
        ((is_underutilized [30] 30).2 = 30 → (is_underutilized [30] 30).1 = false)) :=
  ⟨by decide, C3_classifier_strict_threshold [30] 30 (by decide)⟩

/-- **C9**: `is_underutilized` is a total function and on the empty series it
returns `(False, 0.0)` by the early-return branch, never evaluating the
division; hence a machine with an empty series is never classified
underutilized by this function. -/
theorem C9_empty_series_total_and_safe (threshold : ℚ) :
    is_underutilized [] threshold = (false, 0) := rfl

/-- **C8 counterexample**: the claim says the derived power state is the
lower-cased suffix after the leading `"PowerState/"` of the first matching
status code. The code instead takes `code.split("/")[1].lower()`, the second
`/`-separated field. On the status code `"PowerState/run/ning"` the code
yields `"run"` while the claimed suffix rule yields `"run/ning"`. -/
theorem C8_suffix_rule_counterexample :
    extract_power_state ["PowerState/run/ning"] = "run" ∧
      power_state_spec ["PowerState/run/ning"] = "run/ning" ∧
      extract_power_state ["PowerState/run/ning"] ≠
        power_state_spec ["PowerState/run/ning"] :=
  ⟨by decide, by decide, by decide⟩

/-- **C8 amended**: the derived power state is `"unknown"` when no status
code starts with `"PowerState/"`; otherwise it is the lower-cased second
`/`-separated field of the first such code — which coincides with the
lower-cased suffix after `"PowerState/"` (the spec's wording) whenever that
suffix contains no further `/`, as is the case for every real power-state
code. -/
theorem C8_power_state_derivation (statuses : List String) :
    (statuses.find? (fun code => pyStartsWith code.data "PowerState/".data) = none →
        extract_power_state statuses = "unknown") ∧
      (∀ code,
        statuses.find? (fun code => pyStartsWith code.data "PowerState/".data) =
          some code →
        extract_power_state statuses = ⟨pyLower ((pySplit '/' code.data).getD 1 [])⟩ ∧
          ('/' ∉ code.data.drop "PowerState/".data.length →
            extract_power_state statuses =
                ⟨pyLower (code.data.drop "PowerState/".data.length)⟩ ∧
              extract_power_state statuses = power_state_spec statuses)) := by
  constructor
  · intro hnone
    rw [extract_power_state, hnone]
  · intro code hsome
    have hpre0 := List.find?_some hsome
    have hpre : pyStartsWith code.data "PowerState/".data = true := hpre0
    obtain ⟨t, ht⟩ := (pyStartsWith_iff code.data "PowerState/".data).1 hpre
    have hsplitdata : "PowerState/".data = "PowerState".data ++ ['/'] := by decide
    have hnosep : '/' ∉ "PowerState".data := by decide
    have hdrop : code.data.drop "PowerState/".data.length = t := by
      rw [ht, List.drop_left]
    have hsplit : pySplit '/' code.data = "PowerState".data :: pySplit '/' t := by
      rw [ht, hsplitdata, List.append_assoc, List.singleton_append]
      exact pySplit_prepend '/' "PowerState".data t hnosep
    refine ⟨?_, fun hslash => ?_⟩
    · rw [extract_power_state, hsome]
    · have htail : pySplit '/' t = [t] := by
        rw [hdrop] at hslash
        exact pySplit_no_sep '/' t hslash
      have hfield : (pySplit '/' code.data).getD 1 [] = t := by
        rw [hsplit, htail]
        rfl
      constructor
      · rw [extract_power_state, hsome]
        simp only [hfield, hdrop]
      · rw [extract_power_state, power_state_spec, hsome]
        simp only [hfield, hdrop]

/-- Witness for C8 at a realistic status list whose power-state code is
`"PowerState/Running"`. -/
theorem C8_power_state_derivation_witness :
    (["ProvisioningState/succeeded", "PowerState/Running"].find?
        (fun code => pyStartsWith code.data "PowerState/".data) =
      some "PowerState/Running") ∧
      ('/' ∉ "PowerState/Running".data.drop "PowerState/".data.length) ∧
      extract_power_state ["ProvisioningState/succeeded", "PowerState/Running"] =
        "running" ∧
      extract_power_state ["ProvisioningState/succeeded", "PowerState/Running"] =
        power_state_spec ["ProvisioningState/succeeded", "PowerState/Running"] :=
  ⟨by decide, by decide, by decide,
    (((C8_power_state_derivation
          ["ProvisioningState/succeeded", "PowerState/Running"]).2
        "PowerState/Running" (by decide)).2 (by decide)).2⟩

/-! ### Concrete evaluation helpers for the fixtures -/

theorem underutilP_fetchW_vmA : underutilP fetchW vmA = true := by
  have h1 : fetchW vmA = [(10 : ℚ), 20] := by decide
  have h2 : (is_underutilized [(10 : ℚ), 20] CPU_THRESHOLD).1 = true := by
    rw [is_underutilized_fst_iff _ _ (by decide), is_underutilized, if_neg (by decide)]
    norm_num [CPU_THRESHOLD, List.sum_cons, List.sum_nil]
  rw [underutilP, h1, h2]
  decide

theorem underutil_single_ten : (is_underutilized [(10 : ℚ)] CPU_THRESHOLD).1 = true := by
  rw [is_underutilized_fst_iff _ _ (by decide), is_underutilized, if_neg (by decide)]
  norm_num [CPU_THRESHOLD, List.sum_cons, List.sum_nil]

theorem fetchW_rec_mem :
    recRow fetchW vmA ∈ (generate_recommendations fetchW [vmA, vmB]).recommendations := by
  rw [generate_recommendations_eq]
  have hfil : [vmA, vmB].filter (fun vm => vm.power_state == "running") = [vmA] := by
    decide
  show recRow fetchW vmA ∈
    (([vmA, vmB].filter (fun vm => vm.power_state == "running")).filter
      (underutilP fetchW)).map (recRow fetchW)
  rw [hfil]
  simp [List.filter_cons, underutilP_fetchW_vmA]

theorem vmA_mem_underutil_filter :
    vmA ∈ (generate_recommendations fetchW [vmA, vmB]).running_vms.filter
      (underutilP fetchW) := by
  rw [generate_recommendations_eq]
  have hfil : [vmA, vmB].filter (fun vm => vm.power_state == "running") = [vmA] := by
    decide
  show vmA ∈ ([vmA, vmB].filter (fun vm => vm.power_state == "running")).filter
    (underutilP fetchW)
  rw [hfil]
  simp [List.filter_cons, underutilP_fetchW_vmA]

/-- **C4**: every recommendation row produced by `generate_recommendations`
comes from a machine of the input list whose power state is `running`, whose
fetched series is non-empty, and whose average utilization is strictly below
the configured threshold; no other machine ever yields a downsize row. -/
theorem C4_downsize_only_for_qualifying (fetch : VMInfo → List ℚ)
    (vm_list : List VMInfo) (r : Recommendation)
    (hr : r ∈ (generate_recommendations fetch vm_list).recommendations) :
    ∃ vm, vm ∈ vm_list ∧ vm.power_state = "running" ∧ fetch vm ≠ [] ∧
      (is_underutilized (fetch vm) CPU_THRESHOLD).2 < CPU_THRESHOLD ∧
      r = mkRecommendation vm (is_underutilized (fetch vm) CPU_THRESHOLD).2 := by
  rw [generate_recommendations_eq] at hr
  simp only [List.mem_map] at hr
  obtain ⟨vm, hvm, rfl⟩ := hr
  rw [List.mem_filter] at hvm
  obtain ⟨hvmrun, hq⟩ := hvm
  rw [List.mem_filter] at hvmrun
  rw [underutilP, Bool.and_eq_true] at hq
  have hne : fetch vm ≠ [] := by
    intro hc
    rw [hc] at hq
    simp at hq
  exact ⟨vm, hvmrun.1, by simpa using hvmrun.2, hne,
    (is_underutilized_fst_iff _ _ hne).1 hq.2, rfl⟩

/-- Witness for C4: with the fixture metrics source, `vm-a` (running, series
`[10, 20]`, average 15 below the threshold 30) yields a row, and that row is
accounted for by the theorem. -/
theorem C4_downsize_only_for_qualifying_witness :
    (recRow fetchW vmA ∈ (generate_recommendations fetchW [vmA, vmB]).recommendations) ∧
      ∃ vm, vm ∈ [vmA, vmB] ∧ vm.power_state = "running" ∧ fetchW vm ≠ [] ∧
        (is_underutilized (fetchW vm) CPU_THRESHOLD).2 < CPU_THRESHOLD ∧
        recRow fetchW vmA =
          mkRecommendation vm (is_underutilized (fetchW vm) CPU_THRESHOLD).2 :=
  ⟨fetchW_rec_mem,
    C4_downsize_only_for_qualifying fetchW [vmA, vmB] (recRow fetchW vmA) fetchW_rec_mem⟩

/-- **C5**: the partition of lines 214–215 is a total, order-preserving,
non-overlapping split: the two partitions are sublists of the input (hence
preserve its ordering), membership in each is characterized exactly by the
power state, the partitions are disjoint, and — over the power-state enum of
the data model — a machine lands in neither exactly when its state is
`unknown`. -/
theorem C5_partitioner_total_split (fetch : VMInfo → List ℚ) (vm_list : List VMInfo) :
    (generate_recommendations fetch vm_list).running_vms.Sublist vm_list ∧
      (generate_recommendations fetch vm_list).stopped_vms.Sublist vm_list ∧
      (∀ vm, vm ∈ (generate_recommendations fetch vm_list).running_vms ↔
        vm ∈ vm_list ∧ vm.power_state = "running") ∧
      (∀ vm, vm ∈ (generate_recommendations fetch vm_list).stopped_vms ↔
        vm ∈ vm_list ∧ (vm.power_state = "stopped" ∨ vm.power_state = "deallocated")) ∧
      (∀ vm, ¬(vm ∈ (generate_recommendations fetch vm_list).running_vms ∧
        vm ∈ (generate_recommendations fetch vm_list).stopped_vms)) ∧
      (∀ vm, vm ∈ vm_list →
        (vm.power_state = "running" ∨ vm.power_state = "stopped" ∨
          vm.power_state = "deallocated" ∨ vm.power_state = "unknown") →
        ((vm ∉ (generate_recommendations fetch vm_list).running_vms ∧
            vm ∉ (generate_recommendations fetch vm_list).stopped_vms) ↔
          vm.power_state = "unknown")) := by
  have hrun : ∀ vm, vm ∈ (generate_recommendations fetch vm_list).running_vms ↔
      vm ∈ vm_list ∧ vm.power_state = "running" := by
    intro vm
    rw [generate_recommendations_eq]
    show vm ∈ vm_list.filter (fun vm => vm.power_state == "running") ↔ _
    rw [List.mem_filter]
    simp
  have hstop : ∀ vm, vm ∈ (generate_recommendations fetch vm_list).stopped_vms ↔
      vm ∈ vm_list ∧ (vm.power_state = "stopped" ∨ vm.power_state = "deallocated") := by
    intro vm
    rw [generate_recommendations_eq]
    show vm ∈ vm_list.filter
      (fun vm => vm.power_state == "stopped" || vm.power_state == "deallocated") ↔ _
    rw [List.mem_filter]
    simp
  refine ⟨?_, ?_, hrun, hstop, ?_, ?_⟩
  · rw [generate_recommendations_eq]
    exact List.filter_sublist _
  · rw [generate_recommendations_eq]
    exact List.filter_sublist _
  · rintro vm ⟨h1, h2⟩
    have e1 := ((hrun vm).1 h1).2
    rcases ((hstop vm).1 h2).2 with e2 | e2 <;> rw [e1] at e2 <;>
      exact absurd e2 (by decide)
  · intro vm hmem henum
    constructor
    · rintro ⟨hn1, hn2⟩
      rcases henum with h | h | h | h
      · exact absurd ((hrun vm).2 ⟨hmem, h⟩) hn1
      · exact absurd ((hstop vm).2 ⟨hmem, Or.inl h⟩) hn2
      · exact absurd ((hstop vm).2 ⟨hmem, Or.inr h⟩) hn2
      · exact h
    · intro hunk
      refine ⟨fun hin => ?_, fun hin => ?_⟩
      · have e := ((hrun vm).1 hin).2
        rw [hunk] at e
        exact absurd e (by decide)
      · rcases ((hstop vm).1 hin).2 with e | e <;> rw [hunk] at e <;>
          exact absurd e (by decide)

/-- Witness for C5 at a three-machine inventory: the `unknown` machine lands
in neither partition. -/
theorem C5_partitioner_total_split_witness :
    (vmC ∈ [vmA, vmB, vmC]) ∧
      (vmC.power_state = "running" ∨ vmC.power_state = "stopped" ∨
        vmC.power_state = "deallocated" ∨ vmC.power_state = "unknown") ∧
      ((vmC ∉ (generate_recommendations fetchW [vmA, vmB, vmC]).running_vms ∧
          vmC ∉ (generate_recommendations fetchW [vmA, vmB, vmC]).stopped_vms) ↔
        vmC.power_state = "unknown") :=
  ⟨by decide, by decide,
    (C5_partitioner_total_split fetchW [vmA, vmB, vmC]).2.2.2.2.2 vmC (by decide)
      (by decide)⟩

/-- **C6**: every machine of the stopped/deallocated partition gets a
`delete_candidate` row (`"Consider deleting if no longer needed"`)
unconditionally; the stopped partition and its rows do not depend on the
metrics source at all, and the whole result depends on the metrics source
only through its values on running machines — no fetch is consulted for a
stopped machine. -/
theorem C6_stopped_unconditional_delete_rows (fetch : VMInfo → List ℚ)
    (vm_list : List VMInfo) :
    (stopped_vm_details (generate_recommendations fetch vm_list).stopped_vms =
        (generate_recommendations fetch vm_list).stopped_vms.map mkStoppedRow) ∧
      (∀ vm, vm ∈ (generate_recommendations fetch vm_list).stopped_vms →
        mkStoppedRow vm ∈
            stopped_vm_details (generate_recommendations fetch vm_list).stopped_vms ∧
          (mkStoppedRow vm).recommendation = "Consider deleting if no longer needed") ∧
      (∀ g : VMInfo → List ℚ,
        (generate_recommendations g vm_list).stopped_vms =
          (generate_recommendations fetch vm_list).stopped_vms) ∧
      (∀ f g : VMInfo → List ℚ,
        (∀ vm, vm.power_state = "running" → f vm = g vm) →
        generate_recommendations f vm_list = generate_recommendations g vm_list) := by
  refine ⟨rfl, fun vm hvm => ⟨List.mem_map_of_mem mkStoppedRow hvm, rfl⟩,
    fun g => ?_, fun f g hfg => ?_⟩
  · rw [generate_recommendations_eq, generate_recommendations_eq]
  · have hagree : ∀ vm ∈ vm_list.filter (fun vm => vm.power_state == "running"),
        f vm = g vm := by
      intro vm hvm
      exact hfg vm (by simpa using (List.mem_filter.1 hvm).2)
    have hfil : (vm_list.filter (fun vm => vm.power_state == "running")).filter
          (underutilP f) =
        (vm_list.filter (fun vm => vm.power_state == "running")).filter
          (underutilP g) :=
      List.filter_congr (fun vm hvm => by rw [underutilP, underutilP, hagree vm hvm])
    have hnod : (vm_list.filter (fun vm => vm.power_state == "running")).filter
          (noDataP f) =
        (vm_list.filter (fun vm => vm.power_state == "running")).filter (noDataP g) :=
      List.filter_congr (fun vm hvm => by rw [noDataP, noDataP, hagree vm hvm])
    have hmap : ((vm_list.filter (fun vm => vm.power_state == "running")).filter
          (underutilP g)).map (recRow f) =
        ((vm_list.filter (fun vm => vm.power_state == "running")).filter
          (underutilP g)).map (recRow g) :=
      List.map_congr_left (fun vm hvm => by
        rw [recRow, recRow, hagree vm (List.mem_of_mem_filter hvm)])
    rw [generate_recommendations_eq, generate_recommendations_eq, hfil, hnod, hmap]

/-- Witness for C6: the stopped machine `vm-b` gets its delete-candidate row. -/
theorem C6_stopped_unconditional_delete_rows_witness :
    (vmB ∈ (generate_recommendations fetchW [vmA, vmB]).stopped_vms) ∧
      (mkStoppedRow vmB ∈
          stopped_vm_details (generate_recommendations fetchW [vmA, vmB]).stopped_vms ∧
        (mkStoppedRow vmB).recommendation = "Consider deleting if no longer needed") :=
  ⟨by decide,
    (C6_stopped_unconditional_delete_rows fetchW [vmA, vmB]).2.1 vmB (by decide)⟩

/-- **C7**: a running machine whose fetch yields no data (which is also how a
metrics-fetch failure surfaces, lines 183–185) is only recorded in the
no-data list: no row is emitted for it, nothing is aborted (the embedding is
a total function), and every other qualifying running machine still gets its
row. -/
theorem C7_fetch_failure_isolated (fetch : VMInfo → List ℚ) (vm_list : List VMInfo)
    (vm : VMInfo) (hmem : vm ∈ vm_list) (hrun : vm.power_state = "running")
    (hempty : fetch vm = []) :
    vm.name ∈ (generate_recommendations fetch vm_list).vms_without_data ∧
      (∀ r ∈ (generate_recommendations fetch vm_list).recommendations,
        ∃ vm2, vm2 ∈ vm_list ∧ vm2.power_state = "running" ∧ fetch vm2 ≠ [] ∧
          r = recRow fetch vm2) ∧
      (∀ vm2, vm2 ∈ vm_list → vm2.power_state = "running" → fetch vm2 ≠ [] →
        (is_underutilized (fetch vm2) CPU_THRESHOLD).1 = true →
        recRow fetch vm2 ∈ (generate_recommendations fetch vm_list).recommendations) := by
  refine ⟨?_, ?_, ?_⟩
  · rw [generate_recommendations_eq]
    apply List.mem_map_of_mem VMInfo.name
    rw [List.mem_filter]
    refine ⟨?_, ?_⟩
    · rw [List.mem_filter]
      exact ⟨hmem, by simp [hrun]⟩
    · rw [noDataP, hempty]
      rfl
  · intro r hr
    rw [generate_recommendations_eq] at hr
    simp only [List.mem_map] at hr
    obtain ⟨vm2, hvm2, rfl⟩ := hr
    rw [List.mem_filter] at hvm2
    obtain ⟨hvm2run, hq⟩ := hvm2
    rw [List.mem_filter] at hvm2run
    rw [underutilP, Bool.and_eq_true] at hq
    have hne : fetch vm2 ≠ [] := by
      intro hc
      rw [hc] at hq
      simp at hq
    exact ⟨vm2, hvm2run.1, by simpa using hvm2run.2, hne, rfl⟩
  · intro vm2 h1 h2 h3 h4
    rw [generate_recommendations_eq]
    apply List.mem_map_of_mem (recRow fetch)
    rw [List.mem_filter]
    refine ⟨?_, ?_⟩
    · rw [List.mem_filter]
      exact ⟨h1, by simp [h2]⟩
    · rw [underutilP, Bool.and_eq_true]
      refine ⟨?_, h4⟩
      rcases hf : fetch vm2 with _ | ⟨a, l⟩
      · exact absurd hf h3
      · rfl

/-- Witness for C7: `vm-a` (running) has an empty fetch and lands in the
no-data list, while `vm-d` (running, series `[10]`) still gets its row. -/
theorem C7_fetch_failure_isolated_witness :
    (vmA ∈ [vmA, vmD]) ∧ vmA.power_state = "running" ∧ fetchN vmA = [] ∧
      vmA.name ∈ (generate_recommendations fetchN [vmA, vmD]).vms_without_data ∧
      recRow fetchN vmD ∈ (generate_recommendations fetchN [vmA, vmD]).recommendations :=
  ⟨by decide, rfl, by decide,
    (C7_fetch_failure_isolated fetchN [vmA, vmD] vmA (by decide) rfl (by decide)).1,
    (C7_fetch_failure_isolated fetchN [vmA, vmD] vmA (by decide) rfl (by decide)).2.2
      vmD (by decide) rfl (by decide) underutil_single_ten⟩

/-- **C10**: the recommendation rows are the image of an order-preserving
selection: they are mapped from a sublist of the running partition, itself a
sublist of the inventory (so rows appear in inventory order); the no-data
list is mapped from the running machines with empty fetch; and no machine
contributes to both the rows and the no-data list. -/
theorem C10_order_stable_and_disjoint (fetch : VMInfo → List ℚ)
    (vm_list : List VMInfo) :
    ((generate_recommendations fetch vm_list).recommendations =
        ((generate_recommendations fetch vm_list).running_vms.filter
          (underutilP fetch)).map (recRow fetch)) ∧
      ((generate_recommendations fetch vm_list).running_vms.filter
        (underutilP fetch)).Sublist
        (generate_recommendations fetch vm_list).running_vms ∧
      (generate_recommendations fetch vm_list).running_vms.Sublist vm_list ∧
      ((generate_recommendations fetch vm_list).vms_without_data =
        ((generate_recommendations fetch vm_list).running_vms.filter
          (noDataP fetch)).map VMInfo.name) ∧
      (∀ vm, vm ∈ (generate_recommendations fetch vm_list).running_vms.filter
          (underutilP fetch) →
        vm ∉ (generate_recommendations fetch vm_list).running_vms.filter
          (noDataP fetch)) := by
  rw [generate_recommendations_eq]
  refine ⟨rfl, List.filter_sublist _, List.filter_sublist _, rfl, fun vm h1 h2 => ?_⟩
  have hu := (List.mem_filter.1 h1).2
  have hd := (List.mem_filter.1 h2).2
  rw [underutilP, Bool.and_eq_true] at hu
  rw [noDataP] at hd
  rw [hd] at hu
  simp at hu

/-- Witness for C10: `vm-a` contributes a row and therefore is not a no-data
machine. -/
theorem C10_order_stable_and_disjoint_witness :
    (vmA ∈ (generate_recommendations fetchW [vmA, vmB]).running_vms.filter
        (underutilP fetchW)) ∧
      vmA ∉ (generate_recommendations fetchW [vmA, vmB]).running_vms.filter
        (noDataP fetchW) :=
  ⟨vmA_mem_underutil_filter,
    (C10_order_stable_and_disjoint fetchW [vmA, vmB]).2.2.2.2 vmA
      vmA_mem_underutil_filter⟩

end VMRightsizing
